import Mathlib

/-!
Shallow embedding of the agent routing service
(src/agent-routing-service.js) of the AI-Call-One-Command repository.

The service selects a configured conversational agent for an incoming or
outgoing telephone call. It reads two external stores (an agent registry
table named ai_agents, a phone-number assignment table named
phone_numbers, and a call_logs table). We model the content of those
tables, together with per-query failure injection flags, in a `Store`
structure; each supabase query of the source becomes a pure function of
the store. Nullable record fields become `Option` values, and the
JavaScript defaulting idiom `x || d` (which also replaces empty strings
and the number zero, both falsy) is translated by the `jsOr*` helpers.
String comparison in JavaScript is lexicographic on code units; it is
translated by the executable `charListLe` / `strLe` functions, which are
proved equivalent to the lexicographic order on `String` from the
library.
-/

namespace AgentRouting

/-- JavaScript `v || d` for a nullable string: `null`, `undefined` and
the empty string are falsy and give the default. -/
def jsOrStr (v : Option String) (d : String) : String :=
  match v with
  | none => d
  | some s => if s = "" then d else s

/-- JavaScript `v || d` for a nullable array: only `null` / `undefined`
are falsy (an empty array is truthy and kept). -/
def jsOrList (v : Option (List Nat)) (d : List Nat) : List Nat :=
  v.getD d

/-- JavaScript `v || d` for a nullable number: `null`, `undefined` and
`0` are falsy and give the default. -/
def jsOrNat (v : Option Nat) (d : Nat) : Nat :=
  match v with
  | none => d
  | some n => if n = 0 then d else n

/-- Lexicographic comparison of character lists, as JavaScript string
`<=` compares strings by code units. -/
def charListLe : List Char → List Char → Bool
  | [], _ => true
  | _ :: _, [] => false
  | a :: as, b :: bs => if a < b then true else if b < a then false else charListLe as bs

/-- JavaScript string comparison `a <= b`. -/
def strLe (a b : String) : Bool := charListLe a.data b.data

/-- An agent registry row (table ai_agents). Nullable columns are
`Option`. `created_at` is an abstract creation timestamp used only for
the registry ordering. -/
structure Agent where
  id : String
  name : String
  agent_type : String
  voice_name : Option String := none
  language_code : Option String := none
  system_instruction : Option String := none
  greeting : Option String := none
  is_active : Bool := true
  max_concurrent_calls : Option Nat := none
  call_direction : Option String := none
  timezone : Option String := none
  business_hours_start : Option String := none
  business_hours_end : Option String := none
  business_days : Option (List Nat) := none
  twilio_phone_number : Option String := none
  created_at : Nat := 0
deriving Repr, DecidableEq

/-- Process environment variables read by the service constructor. -/
structure Env where
  VOICE_NAME : Option String := none
  LANGUAGE_CODE : Option String := none
  SYSTEM_INSTRUCTION : Option String := none
deriving Repr, DecidableEq

/-- The built-in default agent constructed by the service constructor
from the environment. -/
def defaultAgent (env : Env) : Agent :=
  { id := "default"
    name := "Default AI Agent"
    agent_type := "general"
    voice_name := some (jsOrStr env.VOICE_NAME "Puck")
    language_code := some (jsOrStr env.LANGUAGE_CODE "en-US")
    system_instruction := some (jsOrStr env.SYSTEM_INSTRUCTION "You are a professional AI assistant for customer service calls. IMPORTANT: You MUST speak first immediately when the call connects. Start with a warm greeting like \"Hello! Thank you for calling. How can I help you today?\" Be helpful, polite, and efficient. Always initiate the conversation and maintain a friendly, professional tone throughout the call.")
    greeting := some "Hello! Thank you for calling. How can I help you today?"
    is_active := true
    max_concurrent_calls := some 10
    call_direction := some "inbound"
    timezone := some "America/New_York"
    business_hours_start := some "09:00"
    business_hours_end := some "17:00"
    business_days := some [1, 2, 3, 4, 5] }

/-- Body of enhanceAgentWithDefaults for a non-null agent: a copy with
the five routing fields defaulted through JavaScript `||`. -/
def enhanceAgent (agent : Agent) : Agent :=
  { agent with
    call_direction := some (jsOrStr agent.call_direction "inbound")
    timezone := some (jsOrStr agent.timezone "America/New_York")
    business_hours_start := some (jsOrStr agent.business_hours_start "09:00")
    business_hours_end := some (jsOrStr agent.business_hours_end "17:00")
    business_days := some (jsOrList agent.business_days [1, 2, 3, 4, 5]) }

/-- enhanceAgentWithDefaults: null in, null out; otherwise enhance. -/
def enhanceAgentWithDefaults : Option Agent → Option Agent
  | none => none
  | some agent => some (enhanceAgent agent)

/-- isAgentAvailable: business-day membership and a business-hours
window check by string comparison (currentTime >= start and
currentTime <= end). -/
def isAgentAvailable (agent : Agent) (currentDay : Nat) (currentTime : String) : Bool :=
  let businessDays := jsOrList agent.business_days [1, 2, 3, 4, 5]
  if !(businessDays.contains currentDay) then false
  else
    let startTime := jsOrStr agent.business_hours_start "09:00"
    let endTime := jsOrStr agent.business_hours_end "17:00"
    strLe startTime currentTime && strLe currentTime endTime

/-- A row of the phone_numbers assignment table with its joined agent
(nullable foreign key). -/
structure PhoneRow where
  phone_number : String
  is_active : Bool := true
  ai_agents : Option Agent := none
deriving Repr, DecidableEq

/-- A row of the call_logs table (only the columns the service reads). -/
structure CallLogRow where
  id : String
  agent_id : String
  call_status : String
deriving Repr, DecidableEq

/-- Result of one supabase query: data, or an error (for a `.single()`
query a result-row count different from one is also reported as an
error). -/
inductive QueryResult (α : Type) where
  | ok : α → QueryResult α
  | err : QueryResult α
deriving Repr, DecidableEq

/-- The external stores, with one failure-injection flag per query site
(a set flag makes that query report a store error). -/
structure Store where
  phone_numbers : List PhoneRow := []
  ai_agents : List Agent := []
  call_logs : List CallLogRow := []
  phoneAssignFails : Bool := false
  primaryNumberFails : Bool := false
  businessHoursListFails : Bool := false
  inboundListFails : Bool := false
  outboundListFails : Bool := false
  agentByIdFails : Bool := false
  agentLimitFails : Bool := false
  callLogsFails : Bool := false
deriving Repr, DecidableEq

/-- Semantics of a supabase `.single()` call on the filtered rows:
exactly one row is ok, zero or several rows is an error. -/
def singleQ {α : Type} : List α → QueryResult α
  | [r] => QueryResult.ok r
  | _ => QueryResult.err

/-- Stable insertion of an agent into a list held in descending
created_at order. -/
def insertCreatedDesc (a : Agent) : List Agent → List Agent
  | [] => [a]
  | b :: rest => if b.created_at < a.created_at then a :: b :: rest else b :: insertCreatedDesc a rest

/-- Ordering clause order by created_at descending. -/
def orderByCreatedDesc : List Agent → List Agent
  | [] => []
  | a :: rest => insertCreatedDesc a (orderByCreatedDesc rest)

/-- The registry query shared by the list lookups: active agents,
newest first. -/
def activeAgentsQuery (db : Store) : List Agent :=
  orderByCreatedDesc (db.ai_agents.filter (fun a => a.is_active))

/-- getAgentByPhoneNumber: the phone_numbers assignment first (active
row whose joined agent is active), then the twilio_phone_number column
of ai_agents; null when both miss or error. -/
def getAgentByPhoneNumber (db : Store) (phoneNumber : String) : Option Agent :=
  let phoneQuery : QueryResult PhoneRow :=
    if db.phoneAssignFails then QueryResult.err
    else singleQ (db.phone_numbers.filter
      (fun r => r.phone_number == phoneNumber && r.is_active))
  let assigned : Option Agent :=
    match phoneQuery with
    | QueryResult.ok row =>
      match row.ai_agents with
      | some joined => if joined.is_active then some joined else none
      | none => none
    | QueryResult.err => none
  match assigned with
  | some joined => enhanceAgentWithDefaults (some joined)
  | none =>
    let primaryQuery : QueryResult Agent :=
      if db.primaryNumberFails then QueryResult.err
      else singleQ (db.ai_agents.filter
        (fun a => a.twilio_phone_number == some phoneNumber && a.is_active))
    match primaryQuery with
    | QueryResult.ok agentData => enhanceAgentWithDefaults (some agentData)
    | QueryResult.err => none

/-- The enhanced, direction-filtered candidate list built inside
getAgentByBusinessHours. -/
def directionCandidates (db : Store) (callDirection : String) : List Agent :=
  ((activeAgentsQuery db).map enhanceAgent).filter
    (fun agent => agent.call_direction == some callDirection || agent.call_direction == some "both")

/-- getAgentByBusinessHours: first candidate available at the current
day and time, else the first candidate of type after_hours, else null;
null on a store error. The current day and HH:MM time, read from the
wall clock in the source, are passed explicitly. In the source
callDirection defaults to "inbound"; callers pass it explicitly here. -/
def getAgentByBusinessHours (db : Store) (currentDay : Nat) (currentTime : String)
    (callDirection : String) : Option Agent :=
  if db.businessHoursListFails then none
  else
    let enhancedAgents := directionCandidates db callDirection
    match enhancedAgents.find? (fun agent => isAgentAvailable agent currentDay currentTime) with
    | some agent => some agent
    | none => enhancedAgents.find? (fun agent => agent.agent_type == "after_hours")

/-- getActiveInboundAgent: first active agent (newest first) whose
enhanced direction is inbound or both; null on miss or error. -/
def getActiveInboundAgent (db : Store) : Option Agent :=
  if db.inboundListFails then none
  else
    ((activeAgentsQuery db).map enhanceAgent).find?
      (fun agent => agent.call_direction == some "inbound" || agent.call_direction == some "both")

/-- getActiveOutboundAgent: first active agent (newest first) whose
enhanced direction is outbound or both; null on miss or error. -/
def getActiveOutboundAgent (db : Store) : Option Agent :=
  if db.outboundListFails then none
  else
    ((activeAgentsQuery db).map enhanceAgent).find?
      (fun agent => agent.call_direction == some "outbound" || agent.call_direction == some "both")

/-- getAgentById: `.single()` lookup of an active agent by id,
enhanced; null on miss or error. -/
def getAgentById (db : Store) (agentId : String) : Option Agent :=
  let q : QueryResult Agent :=
    if db.agentByIdFails then QueryResult.err
    else singleQ (db.ai_agents.filter (fun a => a.id == agentId && a.is_active))
  match q with
  | QueryResult.ok agent => enhanceAgentWithDefaults (some agent)
  | QueryResult.err => none

/-- The Twilio call data destructured by routeIncomingCall. -/
structure CallData where
  From : String := ""
  To : String := ""
  CallSid : String := ""
deriving Repr, DecidableEq

/-- routeIncomingCall: assignment lookup, then business hours, then any
active inbound agent, then the default agent. Current day and time are
passed explicitly (the source reads the wall clock inside
getAgentByBusinessHours). -/
def routeIncomingCall (db : Store) (env : Env) (currentDay : Nat) (currentTime : String)
    (callData : CallData) : Agent :=
  let calledNumber := callData.To
  let agent1 := getAgentByPhoneNumber db calledNumber
  let agent2 :=
    match agent1 with
    | some a => some a
    | none => getAgentByBusinessHours db currentDay currentTime "inbound"
  let agent3 :=
    match agent2 with
    | some a => some a
    | none => getActiveInboundAgent db
  match agent3 with
  | some a => a
  | none => defaultAgent env

/-- The agentId branch of routeOutboundCall: when an agentId is given
(JavaScript truthy, so nonempty), the looked-up agent provided it is
active with direction outbound or both; none otherwise. -/
def outboundViaId (db : Store) (agentId : Option String) : Option Agent :=
  match agentId with
  | none => none
  | some aid =>
    if aid == "" then none
    else
      match getAgentById db aid with
      | some agent =>
        if agent.is_active && (agent.call_direction == some "outbound" || agent.call_direction == some "both")
        then some agent else none
      | none => none

/-- routeOutboundCall: the agentId branch first; otherwise any active
outbound agent, else the default agent. -/
def routeOutboundCall (db : Store) (env : Env) (agentId : Option String)
    (callData : CallData) : Agent :=
  match outboundViaId db agentId with
  | some agent => agent
  | none =>
    match getActiveOutboundAgent db with
    | some agent => agent
    | none => defaultAgent env

/-- The `.single()` fetch of max_concurrent_calls by agent id inside
canAgentHandleCall (this query does not filter on is_active). -/
def maxCallsQuery (db : Store) (agentId : String) : QueryResult (Option Nat) :=
  if db.agentLimitFails then QueryResult.err
  else singleQ ((db.ai_agents.filter (fun a => a.id == agentId)).map
    (fun a => a.max_concurrent_calls))

/-- The query for the in-progress call_logs rows of an agent inside
canAgentHandleCall. -/
def activeCallsQuery (db : Store) (agentId : String) : QueryResult (List CallLogRow) :=
  if db.callLogsFails then QueryResult.err
  else QueryResult.ok (db.call_logs.filter
    (fun c => c.agent_id == agentId && c.call_status == "in-progress"))

/-- canAgentHandleCall: false when the limit fetch errors or finds no
agent; true when the call-count query errors; otherwise
currentCalls < (max_concurrent_calls || 5). -/
def canAgentHandleCall (db : Store) (agentId : String) : Bool :=
  match maxCallsQuery db agentId with
  | QueryResult.err => false
  | QueryResult.ok maxField =>
    match activeCallsQuery db agentId with
    | QueryResult.err => true
    | QueryResult.ok activeCalls =>
      let currentCalls := activeCalls.length
      let maxCalls := jsOrNat maxField 5
      decide (currentCalls < maxCalls)

/-- The invariant of the returned agent view: the five effective
availability fields are present (never undefined). -/
def availabilityFieldsPresent (a : Agent) : Prop :=
  a.call_direction.isSome = true ∧
  a.timezone.isSome = true ∧
  a.business_hours_start.isSome = true ∧
  a.business_hours_end.isSome = true ∧
  a.business_days.isSome = true

/-! Concrete example values used to instantiate the theorems. -/

/-- An empty environment (no variables set). -/
def envEx : Env := {}

/-- Example Twilio call data. -/
def cdEx : CallData :=
  { From := "+15550001111", To := "+15550002222", CallSid := "CA123" }

/-- A store with empty tables and no injected failures. -/
def emptyStore : Store := {}

/-- An agent with the standard Monday-Friday 09:00-17:00 window. -/
def agentHours : Agent :=
  { id := "a-hours", name := "Hours", agent_type := "general"
    business_days := some [1, 2, 3, 4, 5]
    business_hours_start := some "09:00"
    business_hours_end := some "17:00" }

/-- An agent whose business_hours_start is present but holds the empty
string. -/
def agentEmptyStart : Agent :=
  { id := "a-empty", name := "Empty", agent_type := "general"
    business_hours_start := some "" }

/-- An agent with none of the routing fields set. -/
def agentBare : Agent :=
  { id := "a-bare", name := "Bare", agent_type := "general" }

/-- A store where the concurrency-limit fetch of canAgentHandleCall
errors. -/
def storeLimitErr : Store := { agentLimitFails := true }

/-- An agent with no max_concurrent_calls value. -/
def agentNoLimit : Agent :=
  { id := "nl", name := "NL", agent_type := "general", max_concurrent_calls := none }

/-- A store where the in-progress call count query errors. -/
def storeCountErr : Store :=
  { ai_agents := [agentNoLimit], callLogsFails := true }

/-- Two in-progress call log rows for agent nl. -/
def logRow1 : CallLogRow := { id := "l1", agent_id := "nl", call_status := "in-progress" }

/-- Second in-progress row. -/
def logRow2 : CallLogRow := { id := "l2", agent_id := "nl", call_status := "in-progress" }

/-- Store for the default concurrency limit: the agent has no limit
value and two in-progress calls. -/
def storeC10 : Store :=
  { ai_agents := [agentNoLimit], call_logs := [logRow1, logRow2] }

/-- An outbound-only agent with a narrow Tuesday-only window, assigned
to the called number of cdEx. -/
def agentOutOfHours : Agent :=
  { id := "assigned", name := "Assigned", agent_type := "sales"
    call_direction := some "outbound"
    business_days := some [2]
    business_hours_start := some "10:00"
    business_hours_end := some "11:00" }

/-- The phone-number assignment row mapping the called number of cdEx
to agentOutOfHours. -/
def phoneRowEx : PhoneRow :=
  { phone_number := "+15550002222", is_active := true, ai_agents := some agentOutOfHours }

/-- Store holding only the assignment of phoneRowEx. -/
def storeAssign : Store := { phone_numbers := [phoneRowEx] }

/-- An active after_hours agent that only takes outbound calls. -/
def afterHoursOutbound : Agent :=
  { id := "ah1", name := "Night Out", agent_type := "after_hours"
    call_direction := some "outbound", created_at := 5 }

/-- Store whose only agent is afterHoursOutbound. -/
def storeC7 : Store := { ai_agents := [afterHoursOutbound] }

/-- An active after_hours agent taking inbound calls. -/
def afterHoursInbound : Agent :=
  { id := "ah2", name := "Night In", agent_type := "after_hours"
    call_direction := some "inbound", created_at := 6 }

/-- Store whose only agent is afterHoursInbound. -/
def storeC7w : Store := { ai_agents := [afterHoursInbound] }

/-- An active agent that only takes inbound calls. -/
def inboundOnly : Agent :=
  { id := "in1", name := "In", agent_type := "general", call_direction := some "inbound" }

/-- Store whose only agent is inboundOnly. -/
def storeC8 : Store := { ai_agents := [inboundOnly] }

/-- A store with data present but every lookup used by
routeIncomingCall failing. -/
def storeAllFail : Store :=
  { phone_numbers := [phoneRowEx], ai_agents := [agentHours]
    phoneAssignFails := true, primaryNumberFails := true
    businessHoursListFails := true, inboundListFails := true }

/-! Bridge lemmas: the executable JavaScript-style string comparison
agrees with the lexicographic order on strings, and find? is the head
of filter. -/

theorem charListLe_iff_not_lt : ∀ x y : List Char, charListLe x y = true ↔ ¬ y < x
  | [], y => by
    constructor
    · intro _ h
      cases h
    · intro _
      rfl
  | a :: as, [] => by
    constructor
    · intro h
      exact absurd h (by simp [charListLe])
    · intro h
      exact absurd List.Lex.nil h
  | a :: as, b :: bs => by
    by_cases hab : a < b
    · constructor
      · intro _ hc
        cases hc with
        | cons h' => exact absurd hab (lt_irrefl a)
        | rel h' => exact absurd hab (lt_asymm h')
      · intro _
        simp only [charListLe, hab, if_true]
    · by_cases hba : b < a
      · constructor
        · intro h
          exact absurd h (by simp [charListLe, hab, hba])
        · intro h
          exact absurd (List.Lex.rel hba) h
      · have hone : charListLe (a :: as) (b :: bs) = charListLe as bs := by
          simp only [charListLe, hab, hba, if_false]
        have heq : b = a := le_antisymm (not_lt.mp hab) (not_lt.mp hba)
        rw [hone, charListLe_iff_not_lt as bs]
        subst heq
        constructor
        · intro h hc
          cases hc with
          | cons h' => exact h h'
          | rel h' => exact absurd h' hba
        · intro h hc
          exact h (List.Lex.cons hc)

theorem strLe_iff_le (a b : String) : strLe a b = true ↔ a ≤ b := by
  rw [String.le_iff_toList_le, ← not_lt]
  exact charListLe_iff_not_lt a.data b.data

theorem find?_eq_head_filter {α : Type} (p : α → Bool) (l : List α) :
    l.find? p = (l.filter p).head? := by
  induction l with
  | nil => rfl
  | cons a as ih =>
    rw [List.find?_cons, List.filter_cons]
    cases h : p a with
    | true => simp
    | false => simpa using ih

/-! Structural helper lemmas about the lookup helpers. -/

theorem enhanceAgent_fieldsPresent (a : Agent) : availabilityFieldsPresent (enhanceAgent a) :=
  ⟨rfl, rfl, rfl, rfl, rfl⟩

theorem defaultAgent_fieldsPresent (env : Env) : availabilityFieldsPresent (defaultAgent env) :=
  ⟨rfl, rfl, rfl, rfl, rfl⟩

theorem getAgentByPhoneNumber_shape (db : Store) (n : String) :
    getAgentByPhoneNumber db n = none ∨
      ∃ b, getAgentByPhoneNumber db n = some (enhanceAgent b) := by
  simp only [getAgentByPhoneNumber]
  split
  · exact Or.inr ⟨_, rfl⟩
  · split
    · exact Or.inr ⟨_, rfl⟩
    · exact Or.inl rfl

theorem getAgentById_shape (db : Store) (i : String) :
    getAgentById db i = none ∨ ∃ b, getAgentById db i = some (enhanceAgent b) := by
  simp only [getAgentById]
  split
  · exact Or.inr ⟨_, rfl⟩
  · exact Or.inl rfl

theorem mem_map_enhance_shape {db : Store} {a : Agent}
    (h : a ∈ (activeAgentsQuery db).map enhanceAgent) : ∃ b, a = enhanceAgent b := by
  rcases List.mem_map.mp h with ⟨b, _, rfl⟩
  exact ⟨b, rfl⟩

theorem mem_directionCandidates_shape {db : Store} {d : String} {a : Agent}
    (h : a ∈ directionCandidates db d) : ∃ b, a = enhanceAgent b :=
  mem_map_enhance_shape (List.mem_of_mem_filter h)

theorem getAgentByBusinessHours_shape (db : Store) (day : Nat) (time : String) (d : String) :
    getAgentByBusinessHours db day time d = none ∨
      ∃ b, getAgentByBusinessHours db day time d = some (enhanceAgent b) := by
  simp only [getAgentByBusinessHours]
  split
  · exact Or.inl rfl
  · split
    · rename_i a heq
      rcases mem_directionCandidates_shape (List.mem_of_find?_eq_some heq) with ⟨b, rfl⟩
      exact Or.inr ⟨b, rfl⟩
    · cases hf : (directionCandidates db d).find? (fun agent => agent.agent_type == "after_hours") with
      | none => exact Or.inl rfl
      | some a =>
        rcases mem_directionCandidates_shape (List.mem_of_find?_eq_some hf) with ⟨b, rfl⟩
        exact Or.inr ⟨b, rfl⟩

theorem getActiveInboundAgent_shape (db : Store) :
    getActiveInboundAgent db = none ∨
      ∃ b, getActiveInboundAgent db = some (enhanceAgent b) := by
  simp only [getActiveInboundAgent]
  split
  · exact Or.inl rfl
  · cases hf : ((activeAgentsQuery db).map enhanceAgent).find?
        (fun agent => agent.call_direction == some "inbound" || agent.call_direction == some "both") with
    | none => exact Or.inl rfl
    | some a =>
      rcases mem_map_enhance_shape (List.mem_of_find?_eq_some hf) with ⟨b, rfl⟩
      exact Or.inr ⟨b, rfl⟩

theorem getActiveOutboundAgent_shape (db : Store) :
    getActiveOutboundAgent db = none ∨
      ∃ b, getActiveOutboundAgent db = some (enhanceAgent b) := by
  simp only [getActiveOutboundAgent]
  split
  · exact Or.inl rfl
  · cases hf : ((activeAgentsQuery db).map enhanceAgent).find?
        (fun agent => agent.call_direction == some "outbound" || agent.call_direction == some "both") with
    | none => exact Or.inl rfl
    | some a =>
      rcases mem_map_enhance_shape (List.mem_of_find?_eq_some hf) with ⟨b, rfl⟩
      exact Or.inr ⟨b, rfl⟩

theorem routeIncomingCall_eq (db : Store) (env : Env) (day : Nat) (time : String) (cd : CallData) :
    routeIncomingCall db env day time cd =
      match getAgentByPhoneNumber db cd.To with
      | some a => a
      | none =>
        match getAgentByBusinessHours db day time "inbound" with
        | some a => a
        | none =>
          match getActiveInboundAgent db with
          | some a => a
          | none => defaultAgent env := by
  simp only [routeIncomingCall]
  cases getAgentByPhoneNumber db cd.To with
  | some a => rfl
  | none =>
    cases getAgentByBusinessHours db day time "inbound" with
    | some a => rfl
    | none =>
      cases getActiveInboundAgent db with
      | some a => rfl
      | none => rfl

theorem outboundViaId_shape (db : Store) (aid : Option String) :
    outboundViaId db aid = none ∨ ∃ b, outboundViaId db aid = some (enhanceAgent b) := by
  unfold outboundViaId
  cases aid with
  | none => exact Or.inl rfl
  | some a =>
    dsimp only
    split
    · exact Or.inl rfl
    · rcases getAgentById_shape db a with h | ⟨b, h⟩
      · rw [h]
        exact Or.inl rfl
      · rw [h]
        dsimp only
        split
        · exact Or.inr ⟨b, rfl⟩
        · exact Or.inl rfl

theorem routeOutboundCall_shape (db : Store) (env : Env) (aid : Option String) (cd : CallData) :
    routeOutboundCall db env aid cd = defaultAgent env ∨
      ∃ b, routeOutboundCall db env aid cd = enhanceAgent b := by
  unfold routeOutboundCall
  rcases outboundViaId_shape db aid with h | ⟨b, h⟩ <;> rw [h]
  · rcases getActiveOutboundAgent_shape db with h2 | ⟨c, h2⟩ <;> rw [h2]
    · exact Or.inl rfl
    · exact Or.inr ⟨c, rfl⟩
  · exact Or.inr ⟨b, rfl⟩

/-- Claim C9: every agent object returned by routeIncomingCall or
routeOutboundCall has all effective availability fields (call
direction, timezone, business-hours start and end, business days)
present, never undefined, whether it came from a registry lookup or is
the default agent. -/
theorem routing_results_fields_present (db : Store) (env : Env) (currentDay : Nat)
    (currentTime : String) (cd : CallData) (agentId : Option String) :
    availabilityFieldsPresent (routeIncomingCall db env currentDay currentTime cd) ∧
    availabilityFieldsPresent (routeOutboundCall db env agentId cd) := by
  constructor
  · rw [routeIncomingCall_eq]
    rcases getAgentByPhoneNumber_shape db cd.To with h1 | ⟨b, h1⟩
    · rw [h1]
      rcases getAgentByBusinessHours_shape db currentDay currentTime "inbound" with h2 | ⟨b, h2⟩
      · rw [h2]
        rcases getActiveInboundAgent_shape db with h3 | ⟨b, h3⟩
        · rw [h3]
          exact defaultAgent_fieldsPresent env
        · rw [h3]
          exact enhanceAgent_fieldsPresent b
      · rw [h2]
        exact enhanceAgent_fieldsPresent b
    · rw [h1]
      exact enhanceAgent_fieldsPresent b
  · rcases routeOutboundCall_shape db env agentId cd with h | ⟨b, h⟩
    · rw [h]
      exact defaultAgent_fieldsPresent env
    · rw [h]
      exact enhanceAgent_fieldsPresent b

/-- Claim C3: for an enhanced agent (business days present, start and
end present as nonempty HH:MM strings), isAgentAvailable is true
exactly when the weekday is a member of the business-days set and
start <= currentTime <= end in the lexicographic string order, both
endpoints inclusive. -/
theorem isAgentAvailable_iff_window (agent : Agent) (ds : List Nat) (s e : String)
    (hd : agent.business_days = some ds)
    (hs : agent.business_hours_start = some s) (hs0 : s ≠ "")
    (he : agent.business_hours_end = some e) (he0 : e ≠ "")
    (currentDay : Nat) (currentTime : String) :
    isAgentAvailable agent currentDay currentTime = true ↔
      (currentDay ∈ ds ∧ s ≤ currentTime ∧ currentTime ≤ e) := by
  simp only [isAgentAvailable, hd, hs, he, jsOrList, jsOrStr, Option.getD_some]
  rw [if_neg hs0, if_neg he0]
  by_cases hmem : currentDay ∈ ds
  · have hc : ds.contains currentDay = true := by
      simpa [List.contains, List.elem_iff] using hmem
    simp only [hc, Bool.not_true, Bool.false_eq_true, if_false, Bool.and_eq_true,
      strLe_iff_le, hmem, true_and]
  · have hc : ds.contains currentDay = false := by
      simp only [List.contains]
      exact Bool.eq_false_iff.mpr (fun h => hmem (List.elem_iff.mp h))
    simp only [hc, Bool.not_false, if_true, Bool.false_eq_true, false_iff]
    intro h
    exact hmem h.1

/-- Witness for C3 at the example of the spec: days Monday-Friday,
window 09:00 to 17:00, Monday; includes the four sample times. -/
theorem isAgentAvailable_iff_window_witness :
    (isAgentAvailable agentHours 1 "17:00" = true ↔
      (1 ∈ [1, 2, 3, 4, 5] ∧ ("09:00" : String) ≤ "17:00" ∧ ("17:00" : String) ≤ "17:00")) ∧
    isAgentAvailable agentHours 1 "08:59" = false ∧
    isAgentAvailable agentHours 1 "09:00" = true ∧
    isAgentAvailable agentHours 1 "17:00" = true ∧
    isAgentAvailable agentHours 1 "17:01" = false :=
  ⟨isAgentAvailable_iff_window agentHours [1, 2, 3, 4, 5] "09:00" "17:00"
      rfl rfl (by decide) rfl (by decide) 1 "17:00",
    by decide, by decide, by decide, by decide⟩

/-- Claim C4 counterexample: an agent whose business_hours_start field
is present (holding the empty string) is not left untouched; the field
is overwritten with the default. -/
theorem enhanceAgent_empty_field_cex :
    agentEmptyStart.business_hours_start.isSome = true ∧
    (enhanceAgent agentEmptyStart).business_hours_start ≠ agentEmptyStart.business_hours_start ∧
    (enhanceAgent agentEmptyStart).business_hours_start = some "09:00" ∧
    enhanceAgentWithDefaults (some agentEmptyStart) ≠ some agentEmptyStart := by
  refine ⟨rfl, by decide, rfl, by decide⟩

/-- Claim C4 (amended): null maps to null; a missing or empty string
routing field is defaulted, a present nonempty string field is kept, a
present business-days list (even empty) is kept, and every other field
of the shallow copy is unchanged. -/
theorem enhanceAgentWithDefaults_exact_fields (a : Agent) :
    enhanceAgentWithDefaults none = none ∧
    enhanceAgentWithDefaults (some a) = some (enhanceAgent a) ∧
    ((a.call_direction = none ∨ a.call_direction = some "") →
      (enhanceAgent a).call_direction = some "inbound") ∧
    (∀ s, a.call_direction = some s → s ≠ "" → (enhanceAgent a).call_direction = some s) ∧
    ((a.timezone = none ∨ a.timezone = some "") →
      (enhanceAgent a).timezone = some "America/New_York") ∧
    (∀ s, a.timezone = some s → s ≠ "" → (enhanceAgent a).timezone = some s) ∧
    ((a.business_hours_start = none ∨ a.business_hours_start = some "") →
      (enhanceAgent a).business_hours_start = some "09:00") ∧
    (∀ s, a.business_hours_start = some s → s ≠ "" →
      (enhanceAgent a).business_hours_start = some s) ∧
    ((a.business_hours_end = none ∨ a.business_hours_end = some "") →
      (enhanceAgent a).business_hours_end = some "17:00") ∧
    (∀ s, a.business_hours_end = some s → s ≠ "" →
      (enhanceAgent a).business_hours_end = some s) ∧
    (a.business_days = none → (enhanceAgent a).business_days = some [1, 2, 3, 4, 5]) ∧
    (∀ ds, a.business_days = some ds → (enhanceAgent a).business_days = some ds) ∧
    (enhanceAgent a).id = a.id ∧
    (enhanceAgent a).name = a.name ∧
    (enhanceAgent a).agent_type = a.agent_type ∧
    (enhanceAgent a).voice_name = a.voice_name ∧
    (enhanceAgent a).language_code = a.language_code ∧
    (enhanceAgent a).system_instruction = a.system_instruction ∧
    (enhanceAgent a).greeting = a.greeting ∧
    (enhanceAgent a).is_active = a.is_active ∧
    (enhanceAgent a).max_concurrent_calls = a.max_concurrent_calls ∧
    (enhanceAgent a).twilio_phone_number = a.twilio_phone_number ∧
    (enhanceAgent a).created_at = a.created_at := by
  refine ⟨rfl, rfl, ?_, ?_, ?_, ?_, ?_, ?_, ?_, ?_, ?_, ?_,
    rfl, rfl, rfl, rfl, rfl, rfl, rfl, rfl, rfl, rfl, rfl⟩
  · rintro (h | h) <;> simp [enhanceAgent, jsOrStr, h]
  · intro s h h0
    simp [enhanceAgent, jsOrStr, h, h0]
  · rintro (h | h) <;> simp [enhanceAgent, jsOrStr, h]
  · intro s h h0
    simp [enhanceAgent, jsOrStr, h, h0]
  · rintro (h | h) <;> simp [enhanceAgent, jsOrStr, h]
  · intro s h h0
    simp [enhanceAgent, jsOrStr, h, h0]
  · rintro (h | h) <;> simp [enhanceAgent, jsOrStr, h]
  · intro s h h0
    simp [enhanceAgent, jsOrStr, h, h0]
  · intro h
    simp [enhanceAgent, jsOrList, h]
  · intro ds h
    simp [enhanceAgent, jsOrList, h]

/-- Witness for the amended C4 at an agent with no routing fields set:
the direction is defaulted. -/
theorem enhanceAgentWithDefaults_exact_fields_witness :
    (enhanceAgent agentBare).call_direction = some "inbound" :=
  (enhanceAgentWithDefaults_exact_fields agentBare).2.2.1 (Or.inl rfl)

/-- Claim C2 counterexample: when the concurrency-limit fetch errors,
canAgentHandleCall returns false, not true. -/
theorem canAgentHandleCall_limit_error_cex :
    maxCallsQuery storeLimitErr "agent-1" = QueryResult.err ∧
    canAgentHandleCall storeLimitErr "agent-1" = false :=
  ⟨rfl, rfl⟩

/-- Claim C2 (amended): canAgentHandleCall returns false when the
concurrency-limit fetch errors or finds no agent; it fails open
(returns true) when the in-progress count query errors; otherwise it
returns currentCount < maxConcurrentCalls. -/
theorem canAgentHandleCall_error_policy (db : Store) (agentId : String) :
    (maxCallsQuery db agentId = QueryResult.err → canAgentHandleCall db agentId = false) ∧
    (∀ m, maxCallsQuery db agentId = QueryResult.ok m →
      activeCallsQuery db agentId = QueryResult.err → canAgentHandleCall db agentId = true) ∧
    (∀ m calls, maxCallsQuery db agentId = QueryResult.ok m →
      activeCallsQuery db agentId = QueryResult.ok calls →
      canAgentHandleCall db agentId = decide (calls.length < jsOrNat m 5)) := by
  refine ⟨?_, ?_, ?_⟩
  · intro h
    simp only [canAgentHandleCall, h]
  · intro m hm hc
    simp only [canAgentHandleCall, hm, hc]
  · intro m calls hm hc
    simp only [canAgentHandleCall, hm, hc]

/-- Witness for the amended C2: the count query errors and the call is
permitted. -/
theorem canAgentHandleCall_error_policy_witness :
    canAgentHandleCall storeCountErr "nl" = true :=
  (canAgentHandleCall_error_policy storeCountErr "nl").2.1 none rfl rfl

/-- Claim C10: when the fetched agent record has a missing, null or
zero max_concurrent_calls, the limit used is 5, so the result is
currentCount < 5. -/
theorem canAgentHandleCall_default_limit (db : Store) (agentId : String) (m : Option Nat)
    (calls : List CallLogRow) (hm : maxCallsQuery db agentId = QueryResult.ok m)
    (hz : m = none ∨ m = some 0) (hc : activeCallsQuery db agentId = QueryResult.ok calls) :
    canAgentHandleCall db agentId = decide (calls.length < 5) := by
  simp only [canAgentHandleCall, hm, hc]
  rcases hz with h | h <;> subst h <;> rfl

/-- Witness for C10: agent nl has no limit value and two in-progress
calls; the check is 2 < 5. -/
theorem canAgentHandleCall_default_limit_witness :
    canAgentHandleCall storeC10 "nl" = decide (([logRow1, logRow2] : List CallLogRow).length < 5) :=
  canAgentHandleCall_default_limit storeC10 "nl" none [logRow1, logRow2] rfl (Or.inl rfl) rfl

/-! Helper lemmas about the individual fallback steps. -/

theorem getAgentByPhoneNumber_none_of_fails (db : Store) (n : String)
    (h1 : db.phoneAssignFails = true) (h2 : db.primaryNumberFails = true) :
    getAgentByPhoneNumber db n = none := by
  simp [getAgentByPhoneNumber, h1, h2]

theorem getAgentByPhoneNumber_assignment (db : Store) (n : String) (row : PhoneRow) (ag : Agent)
    (hq : db.phoneAssignFails = false)
    (hrow : db.phone_numbers.filter (fun r => r.phone_number == n && r.is_active) = [row])
    (hjoin : row.ai_agents = some ag) (hact : ag.is_active = true) :
    getAgentByPhoneNumber db n = some (enhanceAgent ag) := by
  simp [getAgentByPhoneNumber, hq, hrow, singleQ, hjoin, hact, enhanceAgentWithDefaults]

theorem getAgentByBusinessHours_none_of_fails (db : Store) (day : Nat) (time : String)
    (d : String) (h : db.businessHoursListFails = true) :
    getAgentByBusinessHours db day time d = none := by
  simp [getAgentByBusinessHours, h]

theorem getActiveInboundAgent_none_of_fails (db : Store) (h : db.inboundListFails = true) :
    getActiveInboundAgent db = none := by
  simp [getActiveInboundAgent, h]

theorem getAgentByBusinessHours_window (db : Store) (day : Nat) (time : String) (d : String)
    (a : Agent) (hflag : db.businessHoursListFails = false)
    (hfind : (directionCandidates db d).find? (fun agent => isAgentAvailable agent day time) = some a) :
    getAgentByBusinessHours db day time d = some a := by
  simp [getAgentByBusinessHours, hflag, hfind]

theorem getAgentByBusinessHours_afterHours (db : Store) (day : Nat) (time : String) (d : String)
    (a : Agent) (hflag : db.businessHoursListFails = false)
    (hwin : (directionCandidates db d).find? (fun agent => isAgentAvailable agent day time) = none)
    (hah : (directionCandidates db d).find? (fun agent => agent.agent_type == "after_hours") = some a) :
    getAgentByBusinessHours db day time d = some a := by
  simp [getAgentByBusinessHours, hflag, hwin, hah]

theorem getAgentByBusinessHours_none (db : Store) (day : Nat) (time : String) (d : String)
    (hwin : (directionCandidates db d).find? (fun agent => isAgentAvailable agent day time) = none)
    (hah : (directionCandidates db d).find? (fun agent => agent.agent_type == "after_hours") = none) :
    getAgentByBusinessHours db day time d = none := by
  by_cases hflag : db.businessHoursListFails = true
  · simp [getAgentByBusinessHours, hflag]
  · simp [getAgentByBusinessHours, hflag, hwin, hah]

theorem getActiveInboundAgent_eq (db : Store) :
    getActiveInboundAgent db =
      if db.inboundListFails then none else (directionCandidates db "inbound").head? := by
  unfold getActiveInboundAgent directionCandidates
  rw [find?_eq_head_filter]

theorem getActiveOutboundAgent_direction (db : Store) (b : Agent)
    (h : getActiveOutboundAgent db = some b) :
    b.call_direction = some "outbound" ∨ b.call_direction = some "both" := by
  unfold getActiveOutboundAgent at h
  split at h
  · cases h
  · have hp := List.find?_some h
    rw [Bool.or_eq_true] at hp
    cases hp with
    | inl h1 => exact Or.inl (by simpa using h1)
    | inr h1 => exact Or.inr (by simpa using h1)

/-- Claim C5: routeIncomingCall never throws; an internal lookup
failure degrades to the next fallback step, and when every registry
lookup fails it returns exactly the default agent object. -/
theorem routeIncomingCall_error_degrades (db : Store) (env : Env) (currentDay : Nat)
    (currentTime : String) (cd : CallData) :
    (db.phoneAssignFails = true → db.primaryNumberFails = true →
      ∀ a, getAgentByBusinessHours db currentDay currentTime "inbound" = some a →
        routeIncomingCall db env currentDay currentTime cd = a) ∧
    (db.phoneAssignFails = true → db.primaryNumberFails = true →
      db.businessHoursListFails = true →
      ∀ a, getActiveInboundAgent db = some a →
        routeIncomingCall db env currentDay currentTime cd = a) ∧
    (db.phoneAssignFails = true → db.primaryNumberFails = true →
      db.businessHoursListFails = true → db.inboundListFails = true →
      routeIncomingCall db env currentDay currentTime cd = defaultAgent env) := by
  refine ⟨?_, ?_, ?_⟩
  · intro h1 h2 a ha
    rw [routeIncomingCall_eq, getAgentByPhoneNumber_none_of_fails db cd.To h1 h2, ha]
  · intro h1 h2 h3 a ha
    rw [routeIncomingCall_eq, getAgentByPhoneNumber_none_of_fails db cd.To h1 h2,
      getAgentByBusinessHours_none_of_fails db currentDay currentTime "inbound" h3, ha]
  · intro h1 h2 h3 h4
    rw [routeIncomingCall_eq, getAgentByPhoneNumber_none_of_fails db cd.To h1 h2,
      getAgentByBusinessHours_none_of_fails db currentDay currentTime "inbound" h3,
      getActiveInboundAgent_none_of_fails db h4]

/-- Witness for C5: a store with data present but every lookup failing
routes to the default agent. -/
theorem routeIncomingCall_error_degrades_witness :
    routeIncomingCall storeAllFail envEx 1 "10:00" cdEx = defaultAgent envEx :=
  (routeIncomingCall_error_degrades storeAllFail envEx 1 "10:00" cdEx).2.2 rfl rfl rfl rfl

/-- Claim C6: a phone-number assignment of the called number to an
active agent is always honoured, regardless of the business-hours
window or call-direction fields of that agent; the (enhanced view of
the) assigned agent is returned. -/
theorem routeIncomingCall_assignment_precedence (db : Store) (env : Env) (currentDay : Nat)
    (currentTime : String) (cd : CallData) (row : PhoneRow) (ag : Agent)
    (hq : db.phoneAssignFails = false)
    (hrow : db.phone_numbers.filter (fun r => r.phone_number == cd.To && r.is_active) = [row])
    (hjoin : row.ai_agents = some ag) (hact : ag.is_active = true) :
    routeIncomingCall db env currentDay currentTime cd = enhanceAgent ag := by
  rw [routeIncomingCall_eq, getAgentByPhoneNumber_assignment db cd.To row ag hq hrow hjoin hact]

/-- Witness for C6: the assigned agent is outbound-only with a
Tuesday-only 10:00-11:00 window, yet it is returned at Monday 20:00. -/
theorem routeIncomingCall_assignment_precedence_witness :
    routeIncomingCall storeAssign envEx 1 "20:00" cdEx = enhanceAgent agentOutOfHours :=
  routeIncomingCall_assignment_precedence storeAssign envEx 1 "20:00" cdEx
    phoneRowEx agentOutOfHours rfl rfl rfl rfl

/-- Claim C7 counterexample: the only active agent is an after_hours
agent that takes outbound calls only; there is no assignment and no
agent in its window, yet routeIncomingCall does not return the
after_hours agent. It returns the default agent. -/
theorem routeIncomingCall_after_hours_outbound_cex :
    storeC7.ai_agents = [afterHoursOutbound] ∧
    afterHoursOutbound.is_active = true ∧
    afterHoursOutbound.agent_type = "after_hours" ∧
    getAgentByPhoneNumber storeC7 cdEx.To = none ∧
    ((activeAgentsQuery storeC7).map enhanceAgent).find?
      (fun agent => isAgentAvailable agent 1 "20:00") = none ∧
    routeIncomingCall storeC7 envEx 1 "20:00" cdEx = defaultAgent envEx ∧
    routeIncomingCall storeC7 envEx 1 "20:00" cdEx ≠ enhanceAgent afterHoursOutbound ∧
    routeIncomingCall storeC7 envEx 1 "20:00" cdEx ≠ afterHoursOutbound :=
  ⟨rfl, rfl, rfl, rfl, rfl, rfl, by decide, by decide⟩

/-- Claim C7 (amended): with no assignment, no inbound-capable agent in
its window, and an active inbound-or-both after_hours agent present
(the first such found), routeIncomingCall returns that after_hours
agent. -/
theorem routeIncomingCall_after_hours_fallback (db : Store) (env : Env) (currentDay : Nat)
    (currentTime : String) (cd : CallData) (ah : Agent)
    (h1 : getAgentByPhoneNumber db cd.To = none)
    (hflag : db.businessHoursListFails = false)
    (hwin : (directionCandidates db "inbound").find?
      (fun agent => isAgentAvailable agent currentDay currentTime) = none)
    (hah : (directionCandidates db "inbound").find?
      (fun agent => agent.agent_type == "after_hours") = some ah) :
    routeIncomingCall db env currentDay currentTime cd = ah := by
  rw [routeIncomingCall_eq, h1,
    getAgentByBusinessHours_afterHours db currentDay currentTime "inbound" ah hflag hwin hah]

/-- Witness for the amended C7: one active inbound after_hours agent,
out of window at Monday 20:00, is returned. -/
theorem routeIncomingCall_after_hours_fallback_witness :
    routeIncomingCall storeC7w envEx 1 "20:00" cdEx = enhanceAgent afterHoursInbound :=
  routeIncomingCall_after_hours_fallback storeC7w envEx 1 "20:00" cdEx
    (enhanceAgent afterHoursInbound) rfl rfl rfl rfl

/-- Claim C8: routeOutboundCall with the id of an existing active
inbound-only agent does not return that agent: it falls through to the
general outbound search (whose result can never be an inbound-only
agent) and finally to the default agent. -/
theorem routeOutboundCall_skips_inbound_agent (db : Store) (env : Env) (cd : CallData)
    (aid : String) (ag : Agent)
    (hlook : getAgentById db aid = some ag)
    (hdir : ag.call_direction = some "inbound") (hne : aid ≠ "") :
    routeOutboundCall db env (some aid) cd =
      (match getActiveOutboundAgent db with
       | some agent => agent
       | none => defaultAgent env) ∧
    (∀ b, getActiveOutboundAgent db = some b → b ≠ ag) := by
  constructor
  · unfold routeOutboundCall
    have hvia : outboundViaId db (some aid) = none := by
      unfold outboundViaId
      dsimp only
      rw [if_neg (by simp [hne]), hlook]
      dsimp only
      rw [if_neg (by simp [hdir])]
    rw [hvia]
  · intro b hb hbe
    rcases getActiveOutboundAgent_direction db b hb with h | h <;>
      rw [hbe, hdir] at h <;> simp at h

/-- Witness for C8: the only agent is active and inbound-only; naming
it routes to the outbound search, which yields the default agent. -/
theorem routeOutboundCall_skips_inbound_agent_witness :
    routeOutboundCall storeC8 envEx (some "in1") cdEx =
      (match getActiveOutboundAgent storeC8 with
       | some agent => agent
       | none => defaultAgent envEx) ∧
    routeOutboundCall storeC8 envEx (some "in1") cdEx = defaultAgent envEx :=
  ⟨(routeOutboundCall_skips_inbound_agent storeC8 envEx cdEx "in1" (enhanceAgent inboundOnly)
      rfl rfl (by decide)).1, rfl⟩

/-- Claim C1: routeIncomingCall tries the fallback steps in strict
order, stopping at the first success: the agent assigned to the called
number (assignment table before the primary-number field), then an
active inbound-or-both agent whose availability window covers the
current moment, then any active inbound-or-both agent regardless of
hours, then the built-in default agent. -/
theorem routeIncomingCall_fallback_order (db : Store) (env : Env) (currentDay : Nat)
    (currentTime : String) (cd : CallData) :
    (∀ a, getAgentByPhoneNumber db cd.To = some a →
      routeIncomingCall db env currentDay currentTime cd = a) ∧
    (∀ row ag, db.phoneAssignFails = false →
      db.phone_numbers.filter (fun r => r.phone_number == cd.To && r.is_active) = [row] →
      row.ai_agents = some ag → ag.is_active = true →
      getAgentByPhoneNumber db cd.To = some (enhanceAgent ag)) ∧
    (getAgentByPhoneNumber db cd.To = none → db.businessHoursListFails = false →
      ∀ a, (directionCandidates db "inbound").find?
          (fun agent => isAgentAvailable agent currentDay currentTime) = some a →
        routeIncomingCall db env currentDay currentTime cd = a) ∧
    (getAgentByPhoneNumber db cd.To = none → db.businessHoursListFails = false →
      db.inboundListFails = false →
      (directionCandidates db "inbound").find?
        (fun agent => isAgentAvailable agent currentDay currentTime) = none →
      directionCandidates db "inbound" ≠ [] →
      routeIncomingCall db env currentDay currentTime cd ∈ directionCandidates db "inbound") ∧
    (getAgentByPhoneNumber db cd.To = none → directionCandidates db "inbound" = [] →
      routeIncomingCall db env currentDay currentTime cd = defaultAgent env) := by
  refine ⟨?_, ?_, ?_, ?_, ?_⟩
  · intro a h
    rw [routeIncomingCall_eq, h]
  · intro row ag hq hrow hjoin hact
    exact getAgentByPhoneNumber_assignment db cd.To row ag hq hrow hjoin hact
  · intro h1 hflag a hfind
    rw [routeIncomingCall_eq, h1,
      getAgentByBusinessHours_window db currentDay currentTime "inbound" a hflag hfind]
  · intro h1 hflag hinflag hwin hne
    rw [routeIncomingCall_eq, h1]
    cases hah : (directionCandidates db "inbound").find?
        (fun agent => agent.agent_type == "after_hours") with
    | some ah =>
      rw [getAgentByBusinessHours_afterHours db currentDay currentTime "inbound" ah hflag hwin hah]
      exact List.mem_of_find?_eq_some hah
    | none =>
      obtain ⟨c, cs, hcc⟩ : ∃ c cs, directionCandidates db "inbound" = c :: cs := by
        cases hc : directionCandidates db "inbound" with
        | nil => exact absurd hc hne
        | cons c cs => exact ⟨c, cs, rfl⟩
      rw [getAgentByBusinessHours_none db currentDay currentTime "inbound" hwin hah,
        getActiveInboundAgent_eq, if_neg (by simp [hinflag]), hcc]
      exact List.mem_cons_self c cs
  · intro h1 hempty
    have hwin : (directionCandidates db "inbound").find?
        (fun agent => isAgentAvailable agent currentDay currentTime) = none := by
      rw [hempty]
      rfl
    have hah : (directionCandidates db "inbound").find?
        (fun agent => agent.agent_type == "after_hours") = none := by
      rw [hempty]
      rfl
    rw [routeIncomingCall_eq, h1,
      getAgentByBusinessHours_none db currentDay currentTime "inbound" hwin hah,
      getActiveInboundAgent_eq]
    by_cases hf : db.inboundListFails = true
    · rw [if_pos hf]
    · rw [if_neg hf, hempty]
      rfl

/-- Witness for C1: on an empty store the chain runs through every step
and ends at the default agent. -/
theorem routeIncomingCall_fallback_order_witness :
    routeIncomingCall emptyStore envEx 1 "10:00" cdEx = defaultAgent envEx :=
  (routeIncomingCall_fallback_order emptyStore envEx 1 "10:00" cdEx).2.2.2.2 rfl rfl

end AgentRouting
